import Mathlib

set_option linter.unusedSectionVars false
set_option linter.unusedVariables false

/-!
# Verification of the flow-map data pipeline

This file gives a shallow embedding of the data-merge and flow-ranking
pipeline of the flow-map dashboard (`app.py`) and proves the specified
properties about it.

The pandas data frames are modelled as lists of structures.  The numeric
`obsValue` column is modelled generically by a value type `V` carrying a
`LinearOrder` (for sorting and `nlargest`) and an `AddCommMonoid` (for the
group-by sums); the theorems therefore apply to any ordered value domain
(`ℤ`, `ℚ`, `ℝ`, …).  The visual-scale functions use real-valued `log` and
`sqrt` and are stated over `ℝ`.

Modelling conventions, matching pandas semantics:
* `DataFrame.merge(..., how="left")` duplicates a left row once per matching
  right row and keeps a single row with null fields when nothing matches;
  this is modelled with `List.flatMap`.
* `groupby(keys)[col].sum()` is modelled by collecting the distinct keys and
  summing the column over the rows with that key.  `sort_values` with an
  unstable quicksort leaves the relative order of tied keys unspecified in
  pandas; the embedding fixes one deterministic order (a stable insertion
  sort over the distinct keys in order of appearance), which realises one of
  the permitted tie orders.
* `groupby` drops rows whose grouping keys contain nulls (`dropna=True`).
* Python's `str.strip` and `int(...)` are modelled by `pyStrip` and `pyInt`.
-/

namespace FlowMap

/-- A row of the flow flatfile (`main_df`): origin area, destination area,
row-sector code, column-sector code and the observed value. -/
structure MainRow (V : Type) where
  refArea : String
  counterpartArea : String
  rowIi : String
  colIi : String
  obsValue : V
deriving DecidableEq, Repr

/-- A row of the country-coordinates table (`countries_df`), already reduced
to the three columns the code uses by position: code, latitude, longitude. -/
structure CountryRow where
  code : String
  lat : ℚ
  lon : ℚ
deriving DecidableEq, Repr

/-- A row of the sector taxonomy after `load_nace`: `Code` and `Name`. -/
structure NaceRow where
  code : String
  name : String
deriving DecidableEq, Repr

/-- A row of the enriched table produced by `prepare_merged_data`. -/
structure MergedRow (V : Type) where
  refArea : String
  counterpartArea : String
  rowIi : String
  colIi : String
  obsValue : V
  originLat : Option ℚ
  originLon : Option ℚ
  destLat : Option ℚ
  destLon : Option ℚ
  rowIiName : Option String
  colIiName : Option String
deriving DecidableEq, Repr

/-- A row of `bubble_df`: one destination (with its coordinates, the group
keys of the bubble aggregation) and the aggregated inbound value. -/
structure BubbleRow (V : Type) where
  dest : String
  destLat : Option ℚ
  destLon : Option ℚ
  value : V
deriving DecidableEq, Repr

/-- Python's `str.strip` on the character list of a string: drop whitespace
from both ends. -/
def stripChars (l : List Char) : List Char :=
  ((l.dropWhile Char.isWhitespace).reverse.dropWhile Char.isWhitespace).reverse

/-- Python's `str.strip` lifted to `String`. -/
def pyStrip (s : String) : String :=
  ⟨stripChars s.data⟩

/-- `load_nace`: keep only the first two columns of the source table
(`df.iloc[:, :2]`), rename them to `Code`/`Name`, and cast `Code` to a
whitespace-trimmed string (`astype(str).str.strip()`).  A source cell is a
CSV text field, so it is modelled as a `String`. -/
def load_nace (table : List (List String)) : List NaceRow :=
  table.map (fun r => { code := pyStrip (r.headD ""), name := r.getD 1 "" })

section Pipeline

variable {V : Type} [LinearOrder V] [AddCommMonoid V]

/-- Stable sort of a list into descending order of the measure `f`
(the order `pandas` uses for `nlargest` and `sort_values(ascending=False)`;
with an unstable quicksort the tie order is unspecified, and the stable
order is one of the permitted outcomes). -/
def sortDescBy {α : Type} (f : α → V) (l : List α) : List α :=
  l.insertionSort (fun a b => f b ≤ f a)

/-- The first step of `prepare_merged_data`: keep the flow rows whose origin
is selected, whose destination is selected and which are not domestic
(`refArea != counterpartArea`). -/
def filteredFlows (main : List (MainRow V)) (selOrigin selDest : List String) :
    List (MainRow V) :=
  main.filter (fun r =>
    decide (r.refArea ∈ selOrigin) && decide (r.counterpartArea ∈ selDest) &&
      decide (r.refArea ≠ r.counterpartArea))

/-- The memory cap of `prepare_merged_data`: if more than `limit` rows
survive the filter, keep the `limit` rows with the largest `obsValue`
(`DataFrame.nlargest(limit, 'obsValue')`), otherwise leave the rows
unchanged.  The code instantiates `limit` with `500000`. -/
def capRows (limit : ℕ) (rows : List (MainRow V)) : List (MainRow V) :=
  if limit < rows.length then (sortDescBy (fun r => r.obsValue) rows).take limit
  else rows

/-- A freshly filtered flow row, before any join has attached coordinates or
sector names. -/
def initMerged (r : MainRow V) : MergedRow V :=
  { refArea := r.refArea, counterpartArea := r.counterpartArea,
    rowIi := r.rowIi, colIi := r.colIi, obsValue := r.obsValue,
    originLat := none, originLon := none, destLat := none, destLon := none,
    rowIiName := none, colIiName := none }

/-- The right-hand side of one left-join against the coordinates table: the
list of (lat, lon) enrichments a key receives.  No match keeps one null
enrichment; `n` matches duplicate the row `n` times, as `pandas.merge` does. -/
def joinLoc (countries : List CountryRow) (key : String) : List (Option ℚ × Option ℚ) :=
  if (countries.filter (fun c => decide (c.code = key))).isEmpty then [(none, none)]
  else (countries.filter (fun c => decide (c.code = key))).map
    (fun c => (some c.lat, some c.lon))

/-- The right-hand side of one left-join against the sector taxonomy: the
list of `Name` enrichments a sector code receives. -/
def joinName (nace : List NaceRow) (key : String) : List (Option String) :=
  if (nace.filter (fun c => decide (c.code = key))).isEmpty then [none]
  else (nace.filter (fun c => decide (c.code = key))).map (fun c => some c.name)

/-- The four left-joins of `prepare_merged_data`, applied after the filter
and the row cap: origin coordinates, destination coordinates, row-sector
name, column-sector name. -/
def mergeJoins (countries : List CountryRow) (nace : List NaceRow)
    (capped : List (MainRow V)) : List (MergedRow V) :=
  ((((capped.map initMerged).flatMap
      (fun r => (joinLoc countries r.refArea).map
        (fun c => { r with originLat := c.1, originLon := c.2 }))).flatMap
      (fun r => (joinLoc countries r.counterpartArea).map
        (fun c => { r with destLat := c.1, destLon := c.2 }))).flatMap
      (fun r => (joinName nace r.rowIi).map
        (fun n => { r with rowIiName := n }))).flatMap
      (fun r => (joinName nace r.colIi).map
        (fun n => { r with colIiName := n }))

/-- `prepare_merged_data`: filter the flow table to the selected origins and
destinations and drop domestic flows, cap the row count at 500000 keeping
the largest values, then left-join coordinates (twice) and sector names
(twice). -/
def prepare_merged_data (main : List (MainRow V)) (countries : List CountryRow)
    (nace : List NaceRow) (selOrigin selDest : List String) : List (MergedRow V) :=
  mergeJoins countries nace (capRows 500000 (filteredFlows main selOrigin selDest))

/-- The (origin, destination) pair of an enriched row. -/
def pairOf (r : MergedRow V) : String × String :=
  (r.refArea, r.counterpartArea)

/-- Sum of `obsValue` over the rows of a given (origin, destination) pair:
one cell of `groupby(["refArea", "counterpartArea"])["obsValue"].sum()`. -/
def sumForPair (rows : List (MergedRow V)) (p : String × String) : V :=
  ((rows.filter (fun r => decide (pairOf r = p))).map (fun r => r.obsValue)).sum

/-- `groupby(["refArea", "counterpartArea"])["obsValue"].sum()`: one entry
per distinct pair, carrying the summed value. -/
def aggregateFlows (rows : List (MergedRow V)) : List ((String × String) × V) :=
  ((rows.map pairOf).dedup).map (fun p => (p, sumForPair rows p))

/-- `sort_values(ascending=False)` on an aggregated pair list. -/
def sortDescVal (l : List ((String × String) × V)) : List ((String × String) × V) :=
  l.insertionSort (fun a b => b.2 ≤ a.2)

/-- Aggregate by pair, sort by summed value descending, keep the first `n`
entries (`.sum().sort_values(ascending=False).head(n)`). -/
def topFlows (rows : List (MergedRow V)) (n : ℕ) : List ((String × String) × V) :=
  (sortDescVal (aggregateFlows rows)).take n

/-- The sector filter: `rowIi_name.isin(selectedRow) & colIi_name.isin(selectedCol)`.
A null sector name never matches (`NaN.isin` is false in pandas). -/
def sectorMatch (selRow selCol : List String) (r : MergedRow V) : Bool :=
  (match r.rowIiName with
   | some s => decide (s ∈ selRow)
   | none => false) &&
  (match r.colIiName with
   | some s => decide (s ∈ selCol)
   | none => false)

/-- The sector-filtered subset of the enriched table (`sector_filtered_df`,
and the subset `get_top_flows_global` re-derives internally). -/
def sectorFiltered (rows : List (MergedRow V)) (selRow selCol : List String) :
    List (MergedRow V) :=
  rows.filter (sectorMatch selRow selCol)

/-- The pair keys of an aggregated summary
(`flows[["refArea", "counterpartArea"]]`). -/
def pairsOfSummary (l : List ((String × String) × V)) : List (String × String) :=
  l.map (fun e => e.1)

/-- Inner join of detail rows against a list of pairs on
`["refArea", "counterpartArea"]`: keep the rows whose pair occurs. -/
def innerJoinPairs (rows : List (MergedRow V)) (pairs : List (String × String)) :
    List (MergedRow V) :=
  rows.filter (fun r => decide (pairOf r ∈ pairs))

/-- The number of distinct (origin, destination) pairs among some detail
rows (`len(df.groupby(["refArea", "counterpartArea"]))`). -/
def distinctPairCount (rows : List (MergedRow V)) : ℕ :=
  ((rows.map pairOf).dedup).length

/-- The candidate detail rows of `get_top_flows_global`: the sector-filtered
subset inner-joined against the globally top `n` pairs. -/
def candidateRows (rows : List (MergedRow V)) (selRow selCol : List String) (n : ℕ) :
    List (MergedRow V) :=
  innerJoinPairs (sectorFiltered rows selRow selCol) (pairsOfSummary (topFlows rows n))

/-- The fallback test of `get_top_flows_global`:
`top_flows_detailed.empty or len(top_flows_detailed.groupby([...])) < 5`. -/
def fallbackCond (rows : List (MergedRow V)) (selRow selCol : List String) (n : ℕ) : Bool :=
  (candidateRows rows selRow selCol n).isEmpty ||
    decide (distinctPairCount (candidateRows rows selRow selCol n) < 5)

/-- `get_top_flows_global`: rank pairs over the full enriched table, join the
sector-filtered subset against the top pairs, fall back to a sector-local
ranking when fewer than 5 distinct pairs survive, otherwise recompute the
summary sums from the joined detail rows.  Returns
(detail rows, ranked pair summary) — the code's
`(top_flows_detailed, flow_summary)`. -/
def get_top_flows_global (rows : List (MergedRow V)) (selRow selCol : List String)
    (topN : ℕ) : List (MergedRow V) × List ((String × String) × V) :=
  if fallbackCond rows selRow selCol topN then
    let sectorFlows := topFlows (sectorFiltered rows selRow selCol) topN
    (innerJoinPairs (sectorFiltered rows selRow selCol) (pairsOfSummary sectorFlows),
      sectorFlows)
  else
    (candidateRows rows selRow selCol topN,
      sortDescVal (aggregateFlows (candidateRows rows selRow selCol topN)))

/-- The destinations of the displayed lanes
(`flow_summary["counterpartArea"].unique()`). -/
def displayedDestinations (summary : List ((String × String) × V)) : List String :=
  (summary.map (fun e => e.1.2)).dedup

/-- The grouping key of the bubble aggregation:
`["counterpartArea", "dest_lat", "dest_lon"]`. -/
def bubbleKey (r : MergedRow V) : String × Option ℚ × Option ℚ :=
  (r.counterpartArea, r.destLat, r.destLon)

/-- The rows feeding `bubble_df`: the sector-filtered rows whose destination
is among the displayed destinations; rows with a null coordinate are dropped
by `groupby` (`dropna=True`). -/
def bubbleSourceRows (sector : List (MergedRow V)) (dests : List String) :
    List (MergedRow V) :=
  (sector.filter (fun r => decide (r.counterpartArea ∈ dests))).filter
    (fun r => r.destLat.isSome && r.destLon.isSome)

/-- Sum of `obsValue` over the bubble-source rows of one grouping key. -/
def sumForBubbleKey (rows : List (MergedRow V)) (k : String × Option ℚ × Option ℚ) : V :=
  ((rows.filter (fun r => decide (bubbleKey r = k))).map (fun r => r.obsValue)).sum

/-- `bubble_df`: group the dest-restricted sector-filtered rows by
(destination, dest_lat, dest_lon), sum `obsValue`, and sort by the summed
value descending. -/
def bubble_rows (sector : List (MergedRow V)) (dests : List String) :
    List (BubbleRow V) :=
  sortDescBy (fun b => b.value)
    ((((bubbleSourceRows sector dests).map bubbleKey).dedup).map
      (fun k => { dest := k.1, destLat := k.2.1, destLon := k.2.2,
                  value := sumForBubbleKey (bubbleSourceRows sector dests) k }))

end Pipeline

section ScaleDefs

/-- Python's `int(...)` on a float: truncation toward zero. -/
noncomputable def pyInt (x : ℝ) : ℤ :=
  if 0 ≤ x then ⌊x⌋ else ⌈x⌉

/-- `calculate_arc_width(obs_value, max_value, min_value)`: logarithmic
scaling of a flow total onto a width.  `safe_obs/safe_min/safe_max` lower-
bound the inputs at 1 before the logarithm (`max(x, 1)` in the code,
inlined here); when `max_value == min_value` or the two logarithms
coincide the width is 1; otherwise the log-normalised value is scaled to
`1 + normalized * 3` and `max(1, int(width))` is returned. -/
noncomputable def calculate_arc_width (obs_value max_value min_value : ℝ) : ℤ :=
  if max_value = min_value then 1
  else if Real.log (max max_value 1) = Real.log (max min_value 1) then 1
  else max 1 (pyInt (1 +
    (Real.log (max obs_value 1) - Real.log (max min_value 1)) /
      (Real.log (max max_value 1) - Real.log (max min_value 1)) * 3))

/-- `calculate_bubble_radius(obs_value, max_value, min_value)`: square-root
scaling of a destination total onto a radius; the degenerate case
`max_value == min_value` yields the fixed radius 25000. -/
noncomputable def calculate_bubble_radius (obs_value max_value min_value : ℝ) : ℝ :=
  if max_value = min_value then 25000
  else 20000 + Real.sqrt ((obs_value - min_value) / (max_value - min_value)) * 50000

/-- The composite key `f"{refArea}_{counterpartArea}"` used by the arc-width
mapping. -/
def flowKey (p : String × String) : String :=
  p.1 ++ "_" ++ p.2

/-- A string without an underscore.  Country codes are drawn from the fixed
two-letter allow-list, so the composite `flowKey` is unambiguous on the
pipeline's data. -/
abbrev noUnderscore (s : String) : Prop :=
  '_' ∉ s.data

/-- The lookup built by `dict(zip(keys, values))` followed by `Series.map`:
for duplicate composite keys the later entry wins, and a missing key yields
a null. -/
def flowMapping (summary : List ((String × String) × ℝ)) (k : String) : Option ℝ :=
  ((summary.filter (fun e => decide (flowKey e.1 = k))).getLast?).map (fun e => e.2)

/-- Maximum of a list of reals (`Series.max()` on a non-empty column). -/
noncomputable def listMax : List ℝ → ℝ
  | [] => 0
  | x :: xs => xs.foldl max x

/-- Minimum of a list of reals (`Series.min()` on a non-empty column). -/
noncomputable def listMin : List ℝ → ℝ
  | [] => 0
  | x :: xs => xs.foldl min x

/-- `max_flow = flow_summary["obsValue"].max()`. -/
noncomputable def maxFlowVal (summary : List ((String × String) × ℝ)) : ℝ :=
  listMax (summary.map (fun e => e.2))

/-- `min_flow = flow_summary["obsValue"].min()`. -/
noncomputable def minFlowVal (summary : List ((String × String) × ℝ)) : ℝ :=
  listMin (summary.map (fun e => e.2))

/-- `arc_df["flow_total"]`: the summary total a display row receives by
looking up its composite key in the flow mapping. -/
def flowTotal (summary : List ((String × String) × ℝ)) (r : MergedRow ℝ) : Option ℝ :=
  flowMapping summary (flowKey (pairOf r))

/-- `arc_df["arc_width"]`: the arc width assigned to a display row, computed
by `calculate_arc_width` from the looked-up pair total and the summary-wide
maximum and minimum. -/
noncomputable def arcWidthAssign (summary : List ((String × String) × ℝ))
    (r : MergedRow ℝ) : Option ℤ :=
  (flowTotal summary r).map
    (fun t => calculate_arc_width t (maxFlowVal summary) (minFlowVal summary))

/-- `bubble_df["radius"]`: the radius assigned to one displayed bubble
value, computed by `calculate_bubble_radius` against the maximum and
minimum of the currently displayed bubble values. -/
noncomputable def bubbleRadiusAssign (vs : List ℝ) (v : ℝ) : ℝ :=
  calculate_bubble_radius v (listMax vs) (listMin vs)

end ScaleDefs

section SampleData

/-- A sample enriched row used by concrete witnesses and counterexamples. -/
def sampleRow (o d : String) (v : ℤ) : MergedRow ℤ :=
  { refArea := o, counterpartArea := d, rowIi := "01", colIi := "02",
    obsValue := v, originLat := some 1, originLon := some 2,
    destLat := some 3, destLon := some 4,
    rowIiName := some "S", colIiName := some "T" }

/-- Two lanes with equal aggregated totals: exhibits a tie in the ranking. -/
def sampleTie : List (MergedRow ℤ) :=
  [sampleRow "DE" "FR" 10, sampleRow "IT" "ES" 10]

/-- One dominant lane and one small lane into the same destination. -/
def sampleTwoLanes : List (MergedRow ℤ) :=
  [sampleRow "DE" "ES" 100, sampleRow "FR" "ES" 1]

/-- Five lanes with distinct pairs and distinct totals: the fallback does
not trigger at `topN = 25`. -/
def sampleFiveLanes : List (MergedRow ℤ) :=
  [sampleRow "AT" "BE" 50, sampleRow "BG" "CH" 40, sampleRow "CY" "CZ" 30,
   sampleRow "DK" "EE" 20, sampleRow "FI" "GB" 10]

/-- A sample flow table with one international and one domestic row. -/
def sampleMain : List (MainRow ℤ) :=
  [{ refArea := "DE", counterpartArea := "ES", rowIi := "01", colIi := "02",
     obsValue := 7 },
   { refArea := "DE", counterpartArea := "DE", rowIi := "01", colIi := "02",
     obsValue := 9 }]

/-- A sample coordinates table. -/
def sampleCountries : List CountryRow :=
  [{ code := "DE", lat := 51, lon := 10 }, { code := "ES", lat := 40, lon := -4 }]

/-- A sample raw sector-taxonomy table with a padded code and an extra
column. -/
def sampleNaceTable : List (List String) :=
  [[" 01 ", "Agriculture", "extra"], ["02", "Mining"]]

/-- A sample real-valued display row for the arc-width witness (the width
lookup uses only the row's pair). -/
def sampleRowR (o d : String) : MergedRow ℝ :=
  { refArea := o, counterpartArea := d, rowIi := "01", colIi := "02",
    obsValue := 0, originLat := some 1, originLon := some 2,
    destLat := some 3, destLon := some 4,
    rowIiName := some "S", colIiName := some "T" }

/-- A sample real-valued ranked summary with two pairs and distinct totals. -/
def sampleSummaryR : List ((String × String) × ℝ) :=
  [(("DE", "ES"), 100), (("FR", "ES"), 4)]

/-- The single enriched row that `prepare_merged_data` produces from the
sample inputs above with origins `["DE"]` and destinations `["ES"]`. -/
def sampleMergedOut : MergedRow ℤ :=
  { refArea := "DE", counterpartArea := "ES", rowIi := "01", colIi := "02",
    obsValue := 7, originLat := some 51, originLon := some 10,
    destLat := some 40, destLon := some (-4),
    rowIiName := some "Agriculture", colIiName := some "Mining" }

end SampleData

/-- The bubble that `bubble_rows` produces on `sampleTwoLanes`: the two
sector-filtered rows into ES contribute 100 + 1 = 101, even though only the
DE→ES lane is a displayed flow. -/
def sampleBubbleOut : BubbleRow ℤ :=
  { dest := "ES", destLat := some 3, destLon := some 4, value := 101 }

section RankerLemmas

variable {V : Type} [LinearOrder V] [AddCommMonoid V]

lemma sortDescVal_perm (l : List ((String × String) × V)) : (sortDescVal l).Perm l :=
  List.perm_insertionSort _ l

lemma sortDescVal_sorted (l : List ((String × String) × V)) :
    List.Sorted (fun a b : (String × String) × V => b.2 ≤ a.2) (sortDescVal l) := by
  haveI : IsTotal ((String × String) × V) (fun a b => b.2 ≤ a.2) :=
    ⟨fun a b => le_total b.2 a.2⟩
  haveI : IsTrans ((String × String) × V) (fun a b => b.2 ≤ a.2) :=
    ⟨fun _ _ _ hab hbc => le_trans hbc hab⟩
  exact List.sorted_insertionSort _ l

lemma sortDescBy_perm {α : Type} (f : α → V) (l : List α) : (sortDescBy f l).Perm l :=
  List.perm_insertionSort _ l

lemma sortDescBy_sorted {α : Type} (f : α → V) (l : List α) :
    List.Sorted (fun a b => f b ≤ f a) (sortDescBy f l) := by
  haveI : IsTotal α (fun a b => f b ≤ f a) := ⟨fun a b => le_total (f b) (f a)⟩
  haveI : IsTrans α (fun a b => f b ≤ f a) := ⟨fun _ _ _ hab hbc => le_trans hbc hab⟩
  exact List.sorted_insertionSort _ l

lemma mem_aggregateFlows {rows : List (MergedRow V)} {e : (String × String) × V}
    (he : e ∈ aggregateFlows rows) :
    e.2 = sumForPair rows e.1 ∧ e.1 ∈ rows.map pairOf := by
  obtain ⟨p, hp, rfl⟩ := List.mem_map.mp he
  exact ⟨rfl, List.mem_dedup.mp hp⟩

lemma aggregateFlows_map_fst (rows : List (MergedRow V)) :
    (aggregateFlows rows).map (fun e => e.1) = (rows.map pairOf).dedup := by
  simp [aggregateFlows, List.map_map, Function.comp_def]

lemma nodup_length_le {α : Type} [DecidableEq α] {l₁ l₂ : List α}
    (h₁ : l₁.Nodup) (h₂ : ∀ a ∈ l₁, a ∈ l₂) : l₁.length ≤ l₂.length := by
  calc l₁.length = l₁.toFinset.card := (List.toFinset_card_of_nodup h₁).symm
    _ ≤ l₂.toFinset.card := by
        refine Finset.card_le_card (fun x hx => ?_)
        rw [List.mem_toFinset] at hx ⊢
        exact h₂ x hx
    _ ≤ l₂.length := List.toFinset_card_le l₂

lemma mem_candidateRows {rows : List (MergedRow V)} {selRow selCol : List String}
    {n : ℕ} {r : MergedRow V} :
    r ∈ candidateRows rows selRow selCol n ↔
      r ∈ sectorFiltered rows selRow selCol ∧
        pairOf r ∈ pairsOfSummary (topFlows rows n) := by
  simp [candidateRows, innerJoinPairs, List.mem_filter]

lemma topFlows_length_le (rows : List (MergedRow V)) (n : ℕ) :
    (topFlows rows n).length ≤ n :=
  List.length_take_le n _

lemma mem_topFlows {rows : List (MergedRow V)} {n : ℕ} {e : (String × String) × V}
    (he : e ∈ topFlows rows n) :
    e.2 = sumForPair rows e.1 ∧ e.1 ∈ rows.map pairOf :=
  mem_aggregateFlows
    (((sortDescVal_perm (aggregateFlows rows)).mem_iff).mp
      ((List.take_sublist n _).subset he))

lemma distinctPairCount_candidateRows_le (rows : List (MergedRow V))
    (selRow selCol : List String) (n : ℕ) :
    distinctPairCount (candidateRows rows selRow selCol n) ≤ n := by
  have hsub : ∀ p ∈ ((candidateRows rows selRow selCol n).map pairOf).dedup,
      p ∈ pairsOfSummary (topFlows rows n) := by
    intro p hp
    obtain ⟨r, hr, rfl⟩ := List.mem_map.mp (List.mem_dedup.mp hp)
    exact (mem_candidateRows.mp hr).2
  calc distinctPairCount (candidateRows rows selRow selCol n)
      ≤ (pairsOfSummary (topFlows rows n)).length :=
        nodup_length_le (List.nodup_dedup _) hsub
    _ = (topFlows rows n).length := List.length_map _ _
    _ ≤ n := topFlows_length_le rows n

lemma get_top_flows_global_of_fallback {rows : List (MergedRow V)}
    {selRow selCol : List String} {n : ℕ}
    (h : fallbackCond rows selRow selCol n = true) :
    get_top_flows_global rows selRow selCol n =
      (innerJoinPairs (sectorFiltered rows selRow selCol)
          (pairsOfSummary (topFlows (sectorFiltered rows selRow selCol) n)),
        topFlows (sectorFiltered rows selRow selCol) n) := by
  simp [get_top_flows_global, h]

lemma get_top_flows_global_of_not_fallback {rows : List (MergedRow V)}
    {selRow selCol : List String} {n : ℕ}
    (h : fallbackCond rows selRow selCol n = false) :
    get_top_flows_global rows selRow selCol n =
      (candidateRows rows selRow selCol n,
        sortDescVal (aggregateFlows (candidateRows rows selRow selCol n))) := by
  simp [get_top_flows_global, h]

end RankerLemmas

section MergeLemmas

variable {V : Type} [LinearOrder V] [AddCommMonoid V]

lemma mem_filteredFlows {main : List (MainRow V)} {selOrigin selDest : List String}
    {r : MainRow V} :
    r ∈ filteredFlows main selOrigin selDest ↔
      r ∈ main ∧ r.refArea ∈ selOrigin ∧ r.counterpartArea ∈ selDest ∧
        r.refArea ≠ r.counterpartArea := by
  simp [filteredFlows, List.mem_filter, and_assoc]

lemma mem_capRows (limit : ℕ) (rows : List (MainRow V)) :
    ∀ r ∈ capRows limit rows, r ∈ rows := by
  intro r hr
  unfold capRows at hr
  split at hr
  · exact (sortDescBy_perm _ _).mem_iff.mp ((List.take_sublist _ _).subset hr)
  · exact hr

lemma joinName_spec {nace : List NaceRow} {key : String} {n : Option String}
    (hn : n ∈ joinName nace key) :
    (n = none ∧ ∀ nr ∈ nace, nr.code ≠ key) ∨
      (∃ nr ∈ nace, nr.code = key ∧ n = some nr.name) := by
  unfold joinName at hn
  split at hn
  · left
    rename_i hfil
    rw [List.isEmpty_iff] at hfil
    refine ⟨by simpa using hn, fun nr hnr hcode => ?_⟩
    have : nr ∈ nace.filter (fun c => decide (c.code = key)) :=
      List.mem_filter.mpr ⟨hnr, decide_eq_true hcode⟩
    simp [hfil] at this
  · right
    obtain ⟨c, hc, rfl⟩ := List.mem_map.mp hn
    have hc2 := List.mem_filter.mp hc
    exact ⟨c, hc2.1, of_decide_eq_true hc2.2, rfl⟩

lemma mem_mergeJoins {countries : List CountryRow} {nace : List NaceRow}
    {capped : List (MainRow V)} {m : MergedRow V}
    (hm : m ∈ mergeJoins countries nace capped) :
    ∃ r ∈ capped, m.refArea = r.refArea ∧ m.counterpartArea = r.counterpartArea ∧
      m.rowIi = r.rowIi ∧ m.colIi = r.colIi ∧ m.obsValue = r.obsValue ∧
      m.rowIiName ∈ joinName nace r.rowIi ∧ m.colIiName ∈ joinName nace r.colIi := by
  unfold mergeJoins at hm
  obtain ⟨r3, hr3, hm4⟩ := List.mem_flatMap.mp hm
  obtain ⟨n4, hn4, rfl⟩ := List.mem_map.mp hm4
  obtain ⟨r2, hr2, hm3⟩ := List.mem_flatMap.mp hr3
  obtain ⟨n3, hn3, rfl⟩ := List.mem_map.mp hm3
  obtain ⟨r1, hr1, hm2⟩ := List.mem_flatMap.mp hr2
  obtain ⟨c2, hc2, rfl⟩ := List.mem_map.mp hm2
  obtain ⟨r0m, hr0m, hm1⟩ := List.mem_flatMap.mp hr1
  obtain ⟨c1, hc1, rfl⟩ := List.mem_map.mp hm1
  obtain ⟨r0, hr0, rfl⟩ := List.mem_map.mp hr0m
  exact ⟨r0, hr0, rfl, rfl, rfl, rfl, rfl, hn3, hn4⟩

lemma load_nace_first_two (t : List (List String)) :
    load_nace t = load_nace (t.map (fun r => r.take 2)) := by
  unfold load_nace
  rw [List.map_map]
  refine List.map_congr_left (fun r _ => ?_)
  match r with
  | [] => rfl
  | [_] => rfl
  | _ :: _ :: _ => rfl

end MergeLemmas

section BubbleLemmas

variable {V : Type} [LinearOrder V] [AddCommMonoid V]

lemma mem_bubble_rows {sector : List (MergedRow V)} {dests : List String}
    {b : BubbleRow V} (hb : b ∈ bubble_rows sector dests) :
    b.dest ∈ dests ∧
      b.value = sumForBubbleKey (bubbleSourceRows sector dests)
        (b.dest, b.destLat, b.destLon) := by
  unfold bubble_rows at hb
  have hb2 := (sortDescBy_perm _ _).mem_iff.mp hb
  obtain ⟨k, hk, rfl⟩ := List.mem_map.mp hb2
  obtain ⟨r, hr, hkey⟩ := List.mem_map.mp (List.mem_dedup.mp hk)
  constructor
  · have hr1 := (List.mem_filter.mp (List.mem_filter.mp hr).1).2
    have hmem := of_decide_eq_true hr1
    rw [← hkey]
    exact hmem
  · rfl

end BubbleLemmas

section ScaleLemmas

lemma le_foldl_max (l : List ℝ) (b : ℝ) : b ≤ l.foldl max b := by
  induction l generalizing b with
  | nil => exact le_rfl
  | cons x xs ih => exact le_trans (le_max_left b x) (ih (max b x))

lemma mem_le_foldl_max {a : ℝ} {l : List ℝ} (ha : a ∈ l) (b : ℝ) :
    a ≤ l.foldl max b := by
  induction l generalizing b with
  | nil => cases ha
  | cons x xs ih =>
      rcases List.mem_cons.mp ha with rfl | h
      · exact le_trans (le_max_right b a) (le_foldl_max xs (max b a))
      · exact ih h (max b x)

lemma le_listMax {a : ℝ} {l : List ℝ} (ha : a ∈ l) : a ≤ listMax l := by
  match l, ha with
  | x :: xs, ha =>
      show a ≤ xs.foldl max x
      rcases List.mem_cons.mp ha with rfl | h
      · exact le_foldl_max xs a
      · exact mem_le_foldl_max h x

lemma foldl_min_le (l : List ℝ) (b : ℝ) : l.foldl min b ≤ b := by
  induction l generalizing b with
  | nil => exact le_rfl
  | cons x xs ih => exact le_trans (ih (min b x)) (min_le_left b x)

lemma foldl_min_le_mem {a : ℝ} {l : List ℝ} (ha : a ∈ l) (b : ℝ) :
    l.foldl min b ≤ a := by
  induction l generalizing b with
  | nil => cases ha
  | cons x xs ih =>
      rcases List.mem_cons.mp ha with rfl | h
      · exact le_trans (foldl_min_le xs (min b a)) (min_le_right b a)
      · exact ih h (min b x)

lemma listMin_le {a : ℝ} {l : List ℝ} (ha : a ∈ l) : listMin l ≤ a := by
  match l, ha with
  | x :: xs, ha =>
      show xs.foldl min x ≤ a
      rcases List.mem_cons.mp ha with rfl | h
      · exact foldl_min_le xs a
      · exact foldl_min_le_mem h x

lemma append_underscore_inj :
    ∀ (a c : List Char) {b d : List Char}, '_' ∉ a → '_' ∉ c →
      a ++ '_' :: b = c ++ '_' :: d → a = c ∧ b = d := by
  intro a
  induction a with
  | nil =>
      intro c b d _ hc h
      cases c with
      | nil => simpa using h
      | cons y ys =>
          simp only [List.nil_append, List.cons_append, List.cons.injEq] at h
          exact absurd (h.1 ▸ List.mem_cons_self y ys) hc
  | cons x xs ih =>
      intro c b d hx hc h
      cases c with
      | nil =>
          simp only [List.nil_append, List.cons_append, List.cons.injEq] at h
          exact absurd (h.1 ▸ List.mem_cons_self x xs) hx
      | cons y ys =>
          simp only [List.cons_append, List.cons.injEq] at h
          obtain ⟨h1, h2⟩ := h
          have hx2 : '_' ∉ xs := fun hmem => hx (List.mem_cons_of_mem x hmem)
          have hc2 : '_' ∉ ys := fun hmem => hc (List.mem_cons_of_mem y hmem)
          obtain ⟨h3, h4⟩ := ih ys hx2 hc2 h2
          exact ⟨by rw [h1, h3], h4⟩

lemma flowKey_inj {p q : String × String}
    (hp1 : noUnderscore p.1) (hp2 : noUnderscore p.2)
    (hq1 : noUnderscore q.1) (hq2 : noUnderscore q.2)
    (h : flowKey p = flowKey q) : p = q := by
  have hd : p.1.data ++ '_' :: p.2.data = q.1.data ++ '_' :: q.2.data := by
    have h2 := congrArg String.data h
    simpa [flowKey, String.data_append] using h2
  obtain ⟨h1, h2⟩ := append_underscore_inj _ _ hp1 hq1 hd
  exact Prod.ext (String.ext h1) (String.ext h2)

lemma filter_fst_singleton {β : Type} :
    ∀ {l : List ((String × String) × β)} {p : String × String} {t : β},
      (l.map (fun e => e.1)).Nodup → (p, t) ∈ l →
      l.filter (fun e => decide (e.1 = p)) = [(p, t)] := by
  intro l
  induction l with
  | nil => intro p t _ hmem; cases hmem
  | cons x xs ih =>
      intro p t hnd hmem
      have hnd2 : x.1 ∉ xs.map (fun e => e.1) ∧ (xs.map (fun e => e.1)).Nodup := by
        rw [List.map_cons] at hnd
        exact List.nodup_cons.mp hnd
      rcases List.mem_cons.mp hmem with heq | hmem2
      · subst heq
        have hfil : xs.filter (fun e => decide (e.1 = p)) = [] := by
          rw [List.filter_eq_nil_iff]
          intro e he hdec
          have hep : e.1 = p := of_decide_eq_true hdec
          exact hnd2.1 (hep ▸ List.mem_map_of_mem (fun e => e.1) he)
        simp [List.filter_cons, hfil]
      · have hx : ¬ (x.1 = p) := by
          intro hc
          exact hnd2.1 (hc ▸ (List.mem_map_of_mem (fun e => e.1) hmem2 : p ∈ _))
        simp only [List.filter_cons, decide_eq_true_eq, if_neg hx]
        exact ih hnd2.2 hmem2

lemma flowMapping_lookup {summary : List ((String × String) × ℝ)}
    {p : String × String} {t : ℝ}
    (hnd : (summary.map (fun e => e.1)).Nodup)
    (hu : ∀ q ∈ summary.map (fun e => e.1), noUnderscore q.1 ∧ noUnderscore q.2)
    (hp1 : noUnderscore p.1) (hp2 : noUnderscore p.2)
    (hmem : (p, t) ∈ summary) :
    flowMapping summary (flowKey p) = some t := by
  unfold flowMapping
  have hcongr : summary.filter (fun e => decide (flowKey e.1 = flowKey p)) =
      summary.filter (fun e => decide (e.1 = p)) := by
    refine List.filter_congr (fun e he => ?_)
    by_cases hep : e.1 = p
    · simp [hep]
    · have hne : flowKey e.1 ≠ flowKey p := by
        intro hc
        have hq := hu e.1 (List.mem_map_of_mem (fun e => e.1) he)
        exact hep (flowKey_inj hq.1 hq.2 hp1 hp2 hc)
      simp [hep, hne]
  rw [hcongr, filter_fst_singleton hnd hmem]
  rfl

lemma calculate_arc_width_degenerate (v : ℝ) {mx mn : ℝ} (h : mx = mn) :
    calculate_arc_width v mx mn = 1 := by
  unfold calculate_arc_width
  rw [if_pos h]

lemma calculate_arc_width_bounds {mn mx v : ℝ} (h1 : mn ≤ v) (h2 : v ≤ mx) :
    1 ≤ calculate_arc_width v mx mn ∧ calculate_arc_width v mx mn ≤ 4 := by
  unfold calculate_arc_width
  by_cases hmx : mx = mn
  · rw [if_pos hmx]; exact ⟨le_rfl, by norm_num⟩
  rw [if_neg hmx]
  by_cases hlog : Real.log (max mx 1) = Real.log (max mn 1)
  · rw [if_pos hlog]; exact ⟨le_rfl, by norm_num⟩
  rw [if_neg hlog]
  have hmn1 : (0:ℝ) < max mn 1 := lt_of_lt_of_le zero_lt_one (le_max_right mn 1)
  have hv1 : (0:ℝ) < max v 1 := lt_of_lt_of_le zero_lt_one (le_max_right v 1)
  have hl1 : Real.log (max mn 1) ≤ Real.log (max v 1) :=
    Real.log_le_log hmn1 (max_le_max h1 le_rfl)
  have hl2 : Real.log (max v 1) ≤ Real.log (max mx 1) :=
    Real.log_le_log hv1 (max_le_max h2 le_rfl)
  have hlt : Real.log (max mn 1) < Real.log (max mx 1) :=
    lt_of_le_of_ne (hl1.trans hl2) (fun hc => hlog hc.symm)
  have hD : (0:ℝ) < Real.log (max mx 1) - Real.log (max mn 1) := sub_pos.mpr hlt
  set nrm : ℝ := (Real.log (max v 1) - Real.log (max mn 1)) /
      (Real.log (max mx 1) - Real.log (max mn 1)) with hnrm
  have h0 : 0 ≤ nrm := div_nonneg (sub_nonneg.mpr hl1) hD.le
  have h1n : nrm ≤ 1 := by
    rw [hnrm]
    exact (div_le_one hD).mpr (sub_le_sub_right hl2 _)
  have hw1 : (1:ℝ) ≤ 1 + nrm * 3 := by nlinarith
  have hw4 : 1 + nrm * 3 ≤ 4 := by nlinarith
  have hpy : pyInt (1 + nrm * 3) = ⌊1 + nrm * 3⌋ := by
    unfold pyInt
    rw [if_pos (by linarith)]
  refine ⟨le_max_left 1 _, max_le (by norm_num) ?_⟩
  rw [hpy]
  calc ⌊1 + nrm * 3⌋ ≤ ⌊(4:ℝ)⌋ := Int.floor_le_floor hw4
    _ = 4 := by norm_num

lemma calculate_arc_width_mono {mn mx v1 v2 : ℝ}
    (h1 : mn ≤ v1) (h12 : v1 ≤ v2) (h2 : v2 ≤ mx) :
    calculate_arc_width v1 mx mn ≤ calculate_arc_width v2 mx mn := by
  unfold calculate_arc_width
  by_cases hmx : mx = mn
  · simp [hmx]
  by_cases hlog : Real.log (max mx 1) = Real.log (max mn 1)
  · simp [if_neg hmx, if_pos hlog]
  simp only [if_neg hmx, if_neg hlog]
  have hmn1 : (0:ℝ) < max mn 1 := lt_of_lt_of_le zero_lt_one (le_max_right mn 1)
  have hv11 : (0:ℝ) < max v1 1 := lt_of_lt_of_le zero_lt_one (le_max_right v1 1)
  have hl1 : Real.log (max mn 1) ≤ Real.log (max v1 1) :=
    Real.log_le_log hmn1 (max_le_max h1 le_rfl)
  have hl12 : Real.log (max v1 1) ≤ Real.log (max v2 1) :=
    Real.log_le_log hv11 (max_le_max h12 le_rfl)
  have hv21 : (0:ℝ) < max v2 1 := lt_of_lt_of_le zero_lt_one (le_max_right v2 1)
  have hl2 : Real.log (max v2 1) ≤ Real.log (max mx 1) :=
    Real.log_le_log hv21 (max_le_max h2 le_rfl)
  have hlt : Real.log (max mn 1) < Real.log (max mx 1) :=
    lt_of_le_of_ne ((hl1.trans hl12).trans hl2) (fun hc => hlog hc.symm)
  have hD : (0:ℝ) < Real.log (max mx 1) - Real.log (max mn 1) := sub_pos.mpr hlt
  set nrm1 : ℝ := (Real.log (max v1 1) - Real.log (max mn 1)) /
      (Real.log (max mx 1) - Real.log (max mn 1)) with hnrm1
  set nrm2 : ℝ := (Real.log (max v2 1) - Real.log (max mn 1)) /
      (Real.log (max mx 1) - Real.log (max mn 1)) with hnrm2
  have h01 : 0 ≤ nrm1 := div_nonneg (sub_nonneg.mpr hl1) hD.le
  have h02 : 0 ≤ nrm2 := div_nonneg (sub_nonneg.mpr (hl1.trans hl12)) hD.le
  have hmono : nrm1 ≤ nrm2 := by
    rw [hnrm1, hnrm2]
    exact div_le_div_of_nonneg_right (sub_le_sub_right hl12 _) hD.le
  have hpy1 : pyInt (1 + nrm1 * 3) = ⌊1 + nrm1 * 3⌋ := by
    unfold pyInt
    rw [if_pos (by nlinarith)]
  have hpy2 : pyInt (1 + nrm2 * 3) = ⌊1 + nrm2 * 3⌋ := by
    unfold pyInt
    rw [if_pos (by nlinarith)]
  refine max_le_max le_rfl ?_
  rw [hpy1, hpy2]
  exact Int.floor_le_floor (by nlinarith)

lemma calculate_bubble_radius_degenerate (v : ℝ) {mx mn : ℝ} (h : mx = mn) :
    calculate_bubble_radius v mx mn = 25000 := by
  unfold calculate_bubble_radius
  rw [if_pos h]

lemma calculate_bubble_radius_bounds {mn mx v : ℝ} (h1 : mn ≤ v) (h2 : v ≤ mx) :
    20000 ≤ calculate_bubble_radius v mx mn ∧
      calculate_bubble_radius v mx mn ≤ 70000 := by
  unfold calculate_bubble_radius
  by_cases hmx : mx = mn
  · rw [if_pos hmx]; norm_num
  rw [if_neg hmx]
  have hlt : mn < mx := lt_of_le_of_ne (h1.trans h2) (fun hc => hmx hc.symm)
  have hD : (0:ℝ) < mx - mn := sub_pos.mpr hlt
  have h0 : 0 ≤ (v - mn) / (mx - mn) := div_nonneg (sub_nonneg.mpr h1) hD.le
  have h1n : (v - mn) / (mx - mn) ≤ 1 := (div_le_one hD).mpr (sub_le_sub_right h2 mn)
  have hs0 : 0 ≤ Real.sqrt ((v - mn) / (mx - mn)) := Real.sqrt_nonneg _
  have hs1 : Real.sqrt ((v - mn) / (mx - mn)) ≤ 1 := Real.sqrt_le_one.mpr h1n
  constructor <;> nlinarith

lemma calculate_bubble_radius_mono {mn mx v1 v2 : ℝ}
    (h1 : mn ≤ v1) (h12 : v1 ≤ v2) (h2 : v2 ≤ mx) :
    calculate_bubble_radius v1 mx mn ≤ calculate_bubble_radius v2 mx mn := by
  unfold calculate_bubble_radius
  by_cases hmx : mx = mn
  · simp [hmx]
  simp only [if_neg hmx]
  have hlt : mn < mx := lt_of_le_of_ne ((h1.trans h12).trans h2) (fun hc => hmx hc.symm)
  have hD : (0:ℝ) < mx - mn := sub_pos.mpr hlt
  have hmono : (v1 - mn) / (mx - mn) ≤ (v2 - mn) / (mx - mn) :=
    div_le_div_of_nonneg_right (sub_le_sub_right h12 mn) hD.le
  have hs : Real.sqrt ((v1 - mn) / (mx - mn)) ≤ Real.sqrt ((v2 - mn) / (mx - mn)) :=
    Real.sqrt_le_sqrt hmono
  linarith

section RankingKeys

variable {V : Type} [LinearOrder V] [AddCommMonoid V]

lemma sortDescVal_aggregate_keys_nodup (rows : List (MergedRow V)) :
    ((sortDescVal (aggregateFlows rows)).map (fun e => e.1)).Nodup := by
  have hperm := (sortDescVal_perm (aggregateFlows rows)).map (fun e => e.1)
  rw [hperm.nodup_iff, aggregateFlows_map_fst]
  exact List.nodup_dedup _

lemma topFlows_keys_nodup (rows : List (MergedRow V)) (n : ℕ) :
    ((topFlows rows n).map (fun e => e.1)).Nodup :=
  List.Nodup.sublist ((List.take_sublist n _).map _)
    (sortDescVal_aggregate_keys_nodup rows)

lemma ranking_keys_nodup (rows : List (MergedRow V)) (selRow selCol : List String)
    (n : ℕ) :
    (((get_top_flows_global rows selRow selCol n).2).map (fun e => e.1)).Nodup := by
  cases h : fallbackCond rows selRow selCol n with
  | true =>
      rw [get_top_flows_global_of_fallback h]
      exact topFlows_keys_nodup _ _
  | false =>
      rw [get_top_flows_global_of_not_fallback h]
      exact sortDescVal_aggregate_keys_nodup _

lemma display_pairs_mem_summary (rows : List (MergedRow V))
    (selRow selCol : List String) (n : ℕ) :
    ∀ r ∈ (get_top_flows_global rows selRow selCol n).1,
      pairOf r ∈ ((get_top_flows_global rows selRow selCol n).2).map (fun e => e.1) := by
  intro r hr
  cases h : fallbackCond rows selRow selCol n with
  | true =>
      rw [get_top_flows_global_of_fallback h] at hr ⊢
      exact of_decide_eq_true (List.mem_filter.mp hr).2
  | false =>
      rw [get_top_flows_global_of_not_fallback h] at hr ⊢
      have h2 : pairOf r ∈ ((candidateRows rows selRow selCol n).map pairOf).dedup :=
        List.mem_dedup.mpr (List.mem_map_of_mem pairOf hr)
      rw [← aggregateFlows_map_fst] at h2
      exact ((sortDescVal_perm _).map _).mem_iff.mpr h2

end RankingKeys

end ScaleLemmas

section RankerTheorems

/-- C1.  If the sector-filtered rows inner-joined against the global top-N
pairs are empty, or represent fewer than 5 distinct (origin, destination)
pairs, then `get_top_flows_global` discards the global ranking: it
aggregates and ranks `obsValue` by pair on the sector-filtered subset alone
with the same `topN`, returns that sector-local ranking as the
`RankedFlowPair` summary, and returns the sector-filtered rows joined
against it as the `DisplayFlow` source; every summary total is the
sector-local sum of its pair. -/
theorem fallback_uses_sector_local_ranking {V : Type} [LinearOrder V] [AddCommMonoid V]
    (rows : List (MergedRow V)) (selRow selCol : List String) (topN : ℕ)
    (h : fallbackCond rows selRow selCol topN = true) :
    get_top_flows_global rows selRow selCol topN =
      (innerJoinPairs (sectorFiltered rows selRow selCol)
          (pairsOfSummary (topFlows (sectorFiltered rows selRow selCol) topN)),
        topFlows (sectorFiltered rows selRow selCol) topN) ∧
    ∀ e ∈ (get_top_flows_global rows selRow selCol topN).2,
      e.2 = sumForPair (sectorFiltered rows selRow selCol) e.1 := by
  refine ⟨get_top_flows_global_of_fallback h, fun e he => ?_⟩
  rw [get_top_flows_global_of_fallback h] at he
  exact (mem_topFlows he).1

/-- Witness for C1 at a concrete input: a single surviving pair triggers the
fallback. -/
theorem fallback_uses_sector_local_ranking_witness :
    get_top_flows_global sampleTwoLanes ["S"] ["T"] 1 =
      (innerJoinPairs (sectorFiltered sampleTwoLanes ["S"] ["T"])
          (pairsOfSummary (topFlows (sectorFiltered sampleTwoLanes ["S"] ["T"]) 1)),
        topFlows (sectorFiltered sampleTwoLanes ["S"] ["T"]) 1) ∧
    ∀ e ∈ (get_top_flows_global sampleTwoLanes ["S"] ["T"] 1).2,
      e.2 = sumForPair (sectorFiltered sampleTwoLanes ["S"] ["T"]) e.1 :=
  fallback_uses_sector_local_ranking sampleTwoLanes ["S"] ["T"] 1 (by decide)

/-- C2.  When the fallback does not trigger, the returned summary is the
re-aggregation of the candidate rows (the sector-filtered rows joined
against the global top-N pairs): each summary total is the sum of
`obsValue` over the candidate rows of its pair — not the original global
per-pair aggregate — and each summary pair comes from a candidate row. -/
theorem non_fallback_totals_from_candidates {V : Type} [LinearOrder V] [AddCommMonoid V]
    (rows : List (MergedRow V)) (selRow selCol : List String) (topN : ℕ)
    (h : fallbackCond rows selRow selCol topN = false) :
    (get_top_flows_global rows selRow selCol topN).1 =
      candidateRows rows selRow selCol topN ∧
    (get_top_flows_global rows selRow selCol topN).2 =
      sortDescVal (aggregateFlows (candidateRows rows selRow selCol topN)) ∧
    ∀ e ∈ (get_top_flows_global rows selRow selCol topN).2,
      e.2 = sumForPair (candidateRows rows selRow selCol topN) e.1 ∧
        e.1 ∈ (candidateRows rows selRow selCol topN).map pairOf := by
  rw [get_top_flows_global_of_not_fallback h]
  refine ⟨rfl, rfl, fun e he => ?_⟩
  exact mem_aggregateFlows ((sortDescVal_perm _).mem_iff.mp he)

/-- Witness for C2 at a concrete input with five distinct surviving pairs. -/
theorem non_fallback_totals_from_candidates_witness :
    (get_top_flows_global sampleFiveLanes ["S"] ["T"] 25).1 =
      candidateRows sampleFiveLanes ["S"] ["T"] 25 ∧
    (get_top_flows_global sampleFiveLanes ["S"] ["T"] 25).2 =
      sortDescVal (aggregateFlows (candidateRows sampleFiveLanes ["S"] ["T"] 25)) ∧
    ∀ e ∈ (get_top_flows_global sampleFiveLanes ["S"] ["T"] 25).2,
      e.2 = sumForPair (candidateRows sampleFiveLanes ["S"] ["T"] 25) e.1 ∧
        e.1 ∈ (candidateRows sampleFiveLanes ["S"] ["T"] 25).map pairOf :=
  non_fallback_totals_from_candidates sampleFiveLanes ["S"] ["T"] 25 (by decide)

/-- C3 (amended).  The returned `RankedFlowPair` summary has at most `topN`
entries and is sorted by aggregated total in non-increasing (descending)
order; the order is not strict in general, because distinct pairs can have
equal totals. -/
theorem ranking_length_le_and_sorted_descending {V : Type} [LinearOrder V]
    [AddCommMonoid V] (rows : List (MergedRow V)) (selRow selCol : List String)
    (topN : ℕ) :
    ((get_top_flows_global rows selRow selCol topN).2).length ≤ topN ∧
    List.Sorted (fun a b : (String × String) × V => b.2 ≤ a.2)
      (get_top_flows_global rows selRow selCol topN).2 := by
  cases h : fallbackCond rows selRow selCol topN with
  | true =>
      rw [get_top_flows_global_of_fallback h]
      exact ⟨topFlows_length_le _ _,
        List.Pairwise.sublist (List.take_sublist _ _) (sortDescVal_sorted _)⟩
  | false =>
      rw [get_top_flows_global_of_not_fallback h]
      refine ⟨?_, sortDescVal_sorted _⟩
      calc (sortDescVal (aggregateFlows (candidateRows rows selRow selCol topN))).length
          = (aggregateFlows (candidateRows rows selRow selCol topN)).length :=
            (sortDescVal_perm _).length_eq
        _ = distinctPairCount (candidateRows rows selRow selCol topN) :=
            List.length_map _ _
        _ ≤ topN := distinctPairCount_candidateRows_le rows selRow selCol topN

/-- Counterexample to C3 as stated: with two pairs of equal aggregated
totals the returned summary is not *strictly* sorted in descending order
(its size bound does hold, so the conjunction fails on strictness). -/
theorem ranking_strictly_sorted_counterexample :
    ¬ (((get_top_flows_global sampleTie ["S"] ["T"] 25).2).length ≤ 25 ∧
        List.Chain' (fun a b : (String × String) × ℤ => b.2 < a.2)
          (get_top_flows_global sampleTie ["S"] ["T"] 25).2) := by
  intro hc
  have h : (get_top_flows_global sampleTie ["S"] ["T"] 25).2 =
      [(("DE", "FR"), 10), (("IT", "ES"), 10)] := by decide
  have h2 := hc.2
  rw [h] at h2
  simp [List.chain'_cons] at h2

/-- C10.  With `topN < 5` the fallback always triggers: the candidate set
can represent at most `topN < 5` distinct pairs, so `get_top_flows_global`
always returns the sector-local ranking. -/
theorem small_topn_always_falls_back {V : Type} [LinearOrder V] [AddCommMonoid V]
    (rows : List (MergedRow V)) (selRow selCol : List String) (topN : ℕ)
    (h : topN < 5) :
    distinctPairCount (candidateRows rows selRow selCol topN) < 5 ∧
    fallbackCond rows selRow selCol topN = true ∧
    get_top_flows_global rows selRow selCol topN =
      (innerJoinPairs (sectorFiltered rows selRow selCol)
          (pairsOfSummary (topFlows (sectorFiltered rows selRow selCol) topN)),
        topFlows (sectorFiltered rows selRow selCol) topN) := by
  have hlt : distinctPairCount (candidateRows rows selRow selCol topN) < 5 :=
    lt_of_le_of_lt (distinctPairCount_candidateRows_le rows selRow selCol topN) h
  have hb : fallbackCond rows selRow selCol topN = true := by
    have : decide (distinctPairCount (candidateRows rows selRow selCol topN) < 5) = true :=
      decide_eq_true hlt
    simp [fallbackCond, this]
  exact ⟨hlt, hb, get_top_flows_global_of_fallback hb⟩

/-- Witness for C10 at a concrete input: `topN = 1` on a table whose global
top pair survives the sector filter, yet the fallback still fires. -/
theorem small_topn_always_falls_back_witness :
    distinctPairCount (candidateRows sampleFiveLanes ["S"] ["T"] 1) < 5 ∧
    fallbackCond sampleFiveLanes ["S"] ["T"] 1 = true ∧
    get_top_flows_global sampleFiveLanes ["S"] ["T"] 1 =
      (innerJoinPairs (sectorFiltered sampleFiveLanes ["S"] ["T"])
          (pairsOfSummary (topFlows (sectorFiltered sampleFiveLanes ["S"] ["T"]) 1)),
        topFlows (sectorFiltered sampleFiveLanes ["S"] ["T"]) 1) :=
  small_topn_always_falls_back sampleFiveLanes ["S"] ["T"] 1 (by decide)

end RankerTheorems

section MergeTheorems

/-- C8.  Every row of the enriched table has a selected origin, a selected
destination, and a distinct origin and destination: self-flows are excluded
by the filter step of `prepare_merged_data`, before any join. -/
theorem merged_rows_exclude_self_flows {V : Type} [LinearOrder V] [AddCommMonoid V]
    (main : List (MainRow V)) (countries : List CountryRow) (nace : List NaceRow)
    (selOrigin selDest : List String) (m : MergedRow V)
    (hm : m ∈ prepare_merged_data main countries nace selOrigin selDest) :
    m.refArea ∈ selOrigin ∧ m.counterpartArea ∈ selDest ∧
      m.refArea ≠ m.counterpartArea := by
  obtain ⟨r, hr, hra, hca, -, -, -, -, -⟩ := mem_mergeJoins hm
  have hr2 := mem_filteredFlows.mp (mem_capRows _ _ r hr)
  rw [hra, hca]
  exact ⟨hr2.2.1, hr2.2.2.1, hr2.2.2.2⟩

/-- Witness for C8 at a concrete input: the domestic DE→DE row of
`sampleMain` is dropped and the surviving enriched row is DE→ES. -/
theorem merged_rows_exclude_self_flows_witness :
    sampleMergedOut.refArea ∈ ["DE"] ∧ sampleMergedOut.counterpartArea ∈ ["ES"] ∧
      sampleMergedOut.refArea ≠ sampleMergedOut.counterpartArea :=
  merged_rows_exclude_self_flows sampleMain sampleCountries
    (load_nace sampleNaceTable) ["DE"] ["ES"] sampleMergedOut (by decide)

/-- C9.  `prepare_merged_data` applies the 500000-row cap to the filtered
flow table before any join; a row set at or under the limit is left
unchanged, and a row set over the limit is reduced to exactly `limit` rows
drawn from the input such that every dropped row's value is at most every
kept row's value (the top-by-value subset). -/
theorem row_cap_keeps_largest_values {V : Type} [LinearOrder V] [AddCommMonoid V]
    (main : List (MainRow V)) (countries : List CountryRow) (nace : List NaceRow)
    (selOrigin selDest : List String) :
    prepare_merged_data main countries nace selOrigin selDest =
      mergeJoins countries nace
        (capRows 500000 (filteredFlows main selOrigin selDest)) ∧
    (∀ (limit : ℕ) (l : List (MainRow V)), l.length ≤ limit →
      capRows limit l = l) ∧
    ∀ (limit : ℕ) (l : List (MainRow V)), limit < l.length →
      (capRows limit l).length = limit ∧
      ∀ s ∈ capRows limit l, s ∈ l ∧
        ∀ r ∈ l, r ∉ capRows limit l → r.obsValue ≤ s.obsValue := by
  refine ⟨rfl, fun limit l hle => ?_, fun limit l hlt => ?_⟩
  · unfold capRows
    rw [if_neg (not_lt.mpr hle)]
  · have hcap : capRows limit l = (sortDescBy (fun r => r.obsValue) l).take limit := by
      unfold capRows
      rw [if_pos hlt]
    have hperm := sortDescBy_perm (fun r : MainRow V => r.obsValue) l
    have hsplit := List.take_append_drop limit (sortDescBy (fun r : MainRow V => r.obsValue) l)
    have hpw : List.Pairwise
        (fun a b : MainRow V => b.obsValue ≤ a.obsValue)
        ((sortDescBy (fun r : MainRow V => r.obsValue) l).take limit ++
          (sortDescBy (fun r : MainRow V => r.obsValue) l).drop limit) := by
      rw [hsplit]
      exact sortDescBy_sorted _ l
    have hacross := (List.pairwise_append.mp hpw).2.2
    constructor
    · rw [hcap, List.length_take, hperm.length_eq]
      exact min_eq_left hlt.le
    · intro s hs
      rw [hcap] at hs
      refine ⟨hperm.mem_iff.mp ((List.take_sublist _ _).subset hs), ?_⟩
      intro r hr hrnot
      rw [hcap] at hrnot
      have hrs : r ∈ (sortDescBy (fun r : MainRow V => r.obsValue) l).take limit ++
          (sortDescBy (fun r : MainRow V => r.obsValue) l).drop limit := by
        rw [hsplit]
        exact hperm.mem_iff.mpr hr
      rcases List.mem_append.mp hrs with hrt | hrd
      · exact absurd hrt hrnot
      · exact hacross s hs r hrd

/-- Witness for C9: on `sampleMain` (2 rows) a limit of 5 leaves the rows
unchanged, while a limit of 1 keeps exactly the single largest-value row. -/
theorem row_cap_keeps_largest_values_witness :
    capRows 5 sampleMain = sampleMain ∧ (capRows 1 sampleMain).length = 1 :=
  ⟨(row_cap_keeps_largest_values sampleMain sampleCountries
      (load_nace sampleNaceTable) ["DE"] ["ES"]).2.1 5 sampleMain (by decide),
   ((row_cap_keeps_largest_values sampleMain sampleCountries
      (load_nace sampleNaceTable) ["DE"] ["ES"]).2.2 1 sampleMain (by decide)).1⟩

/-- C7.  The taxonomy loader uses only the first two columns of its source
table; every loaded entry is the whitespace-trimmed string of the first
column paired with the second column; and in the enriched table each
row-sector (and column-sector) name is exactly the `Name` of a taxonomy
entry whose `Code` textually equals the flow row's sector code, or null
when no taxonomy code textually equals it. -/
theorem nace_first_two_columns_trimmed_code_join {V : Type} [LinearOrder V]
    [AddCommMonoid V] (t : List (List String)) (main : List (MainRow V))
    (countries : List CountryRow) (selOrigin selDest : List String) :
    load_nace t = load_nace (t.map (fun r => r.take 2)) ∧
    (∀ nr ∈ load_nace t, ∃ src ∈ t,
      nr.code = pyStrip (src.headD "") ∧ nr.name = src.getD 1 "") ∧
    ∀ m ∈ prepare_merged_data main countries (load_nace t) selOrigin selDest,
      ((∃ nr ∈ load_nace t, nr.code = m.rowIi ∧ m.rowIiName = some nr.name) ∨
        (m.rowIiName = none ∧ ∀ nr ∈ load_nace t, nr.code ≠ m.rowIi)) ∧
      ((∃ nr ∈ load_nace t, nr.code = m.colIi ∧ m.colIiName = some nr.name) ∨
        (m.colIiName = none ∧ ∀ nr ∈ load_nace t, nr.code ≠ m.colIi)) := by
  refine ⟨load_nace_first_two t, fun nr hnr => ?_, fun m hm => ?_⟩
  · obtain ⟨src, hsrc, rfl⟩ := List.mem_map.mp hnr
    exact ⟨src, hsrc, rfl, rfl⟩
  · obtain ⟨r, -, -, -, hrow, hcol, -, hjr, hjc⟩ := mem_mergeJoins hm
    constructor
    · rw [← hrow] at hjr
      rcases joinName_spec hjr with hnone | hsome
      · exact Or.inr hnone
      · obtain ⟨nr, h1, h2, h3⟩ := hsome
        exact Or.inl ⟨nr, h1, h2, h3⟩
    · rw [← hcol] at hjc
      rcases joinName_spec hjc with hnone | hsome
      · exact Or.inr hnone
      · obtain ⟨nr, h1, h2, h3⟩ := hsome
        exact Or.inl ⟨nr, h1, h2, h3⟩

/-- Witness for C7 at a concrete input: the code `" 01 "` is trimmed to
`"01"` and the flow row with `rowIi = "01"` receives the name
`"Agriculture"`. -/
theorem nace_first_two_columns_trimmed_code_join_witness :
    ((∃ nr ∈ load_nace sampleNaceTable, nr.code = sampleMergedOut.rowIi ∧
        sampleMergedOut.rowIiName = some nr.name) ∨
      (sampleMergedOut.rowIiName = none ∧
        ∀ nr ∈ load_nace sampleNaceTable, nr.code ≠ sampleMergedOut.rowIi)) ∧
    ((∃ nr ∈ load_nace sampleNaceTable, nr.code = sampleMergedOut.colIi ∧
        sampleMergedOut.colIiName = some nr.name) ∨
      (sampleMergedOut.colIiName = none ∧
        ∀ nr ∈ load_nace sampleNaceTable, nr.code ≠ sampleMergedOut.colIi)) :=
  (nace_first_two_columns_trimmed_code_join sampleNaceTable sampleMain
    sampleCountries ["DE"] ["ES"]).2.2 sampleMergedOut (by decide)

end MergeTheorems

section BubbleTheorems

/-- Counterexample to C6 as stated: with `sampleTwoLanes` and `topN = 1`
the only ranked pair is DE→ES and the only `DisplayFlow` row is the DE→ES
row of value 100, but the ES bubble carries 101, because the bubble
aggregation sums all sector-filtered rows into a displayed destination,
not only the rows that survived the top-N pair selection. -/
theorem bubble_value_display_only_counterexample :
    ¬ (∀ b ∈ bubble_rows (sectorFiltered sampleTwoLanes ["S"] ["T"])
          (displayedDestinations
            (get_top_flows_global sampleTwoLanes ["S"] ["T"] 1).2),
        b.value = (((get_top_flows_global sampleTwoLanes ["S"] ["T"] 1).1.filter
            (fun r => decide (r.counterpartArea = b.dest))).map
              (fun r => r.obsValue)).sum) := by
  decide

/-- C6 (amended).  Each bubble's value is the sum of `obsValue` over the
*sector-filtered* rows (with non-null destination coordinates) whose
(destination, dest_lat, dest_lon) key equals the bubble's key, restricted
to destinations appearing in the `RankedFlowPair` summary — this includes
rows whose origin-destination pair is not among the ranked pairs, so the
aggregation is not limited to the `DisplayFlow` rows. -/
theorem bubble_values_aggregate_sector_rows {V : Type} [LinearOrder V]
    [AddCommMonoid V] (rows : List (MergedRow V)) (selRow selCol : List String)
    (topN : ℕ) (b : BubbleRow V)
    (hb : b ∈ bubble_rows (sectorFiltered rows selRow selCol)
      (displayedDestinations (get_top_flows_global rows selRow selCol topN).2)) :
    b.dest ∈ displayedDestinations (get_top_flows_global rows selRow selCol topN).2 ∧
    b.value = sumForBubbleKey
      (bubbleSourceRows (sectorFiltered rows selRow selCol)
        (displayedDestinations (get_top_flows_global rows selRow selCol topN).2))
      (b.dest, b.destLat, b.destLon) :=
  mem_bubble_rows hb

/-- Witness for the amended C6 at the concrete input of the counterexample:
the ES bubble aggregates 101 over the sector-filtered rows into ES. -/
theorem bubble_values_aggregate_sector_rows_witness :
    sampleBubbleOut.dest ∈ displayedDestinations
      (get_top_flows_global sampleTwoLanes ["S"] ["T"] 1).2 ∧
    sampleBubbleOut.value = sumForBubbleKey
      (bubbleSourceRows (sectorFiltered sampleTwoLanes ["S"] ["T"])
        (displayedDestinations (get_top_flows_global sampleTwoLanes ["S"] ["T"] 1).2))
      (sampleBubbleOut.dest, sampleBubbleOut.destLat, sampleBubbleOut.destLon) :=
  bubble_values_aggregate_sector_rows sampleTwoLanes ["S"] ["T"] 1
    sampleBubbleOut (by decide)

end BubbleTheorems

section ScaleTheorems

/-- C4.  Part one: the `RankedFlowPair` summary returned by the ranker has
pairwise-distinct pair keys, and every `DisplayFlow` row's pair occurs
among them, so the arc-width lookup key of every display row is present in
the mapping.  Part two: for any ranked summary with distinct,
underscore-free pair keys (country codes come from the fixed two-letter
allow-list), the composite-key lookup of a display row returns exactly its
pair's aggregated total `t`, the assigned arc width is
`calculate_arc_width t vmax vmin` — the log-scaled
`1 + 3*(ln(max t 1) - ln(max vmin 1))/(ln(max vmax 1) - ln(max vmin 1))`
floored to an integer — and that width lies in `[1, 4]`, is monotonically
non-decreasing in the total, and equals 1 whenever `vmax = vmin`. -/
theorem arc_width_from_ranked_totals :
    (∀ (V : Type) [LinearOrder V] [AddCommMonoid V] (rows : List (MergedRow V))
        (selRow selCol : List String) (topN : ℕ),
      (((get_top_flows_global rows selRow selCol topN).2).map (fun e => e.1)).Nodup ∧
      ∀ r ∈ (get_top_flows_global rows selRow selCol topN).1,
        pairOf r ∈ ((get_top_flows_global rows selRow selCol topN).2).map
          (fun e => e.1)) ∧
    ∀ (summary : List ((String × String) × ℝ)) (r1 r2 : MergedRow ℝ),
      (summary.map (fun e => e.1)).Nodup →
      (∀ q ∈ summary.map (fun e => e.1), noUnderscore q.1 ∧ noUnderscore q.2) →
      noUnderscore r1.refArea → noUnderscore r1.counterpartArea →
      noUnderscore r2.refArea → noUnderscore r2.counterpartArea →
      pairOf r1 ∈ summary.map (fun e => e.1) →
      pairOf r2 ∈ summary.map (fun e => e.1) →
      ∃ t1 t2 : ℝ, (pairOf r1, t1) ∈ summary ∧ (pairOf r2, t2) ∈ summary ∧
        flowTotal summary r1 = some t1 ∧ flowTotal summary r2 = some t2 ∧
        arcWidthAssign summary r1 =
          some (calculate_arc_width t1 (maxFlowVal summary) (minFlowVal summary)) ∧
        1 ≤ calculate_arc_width t1 (maxFlowVal summary) (minFlowVal summary) ∧
        calculate_arc_width t1 (maxFlowVal summary) (minFlowVal summary) ≤ 4 ∧
        (t1 ≤ t2 →
          calculate_arc_width t1 (maxFlowVal summary) (minFlowVal summary) ≤
            calculate_arc_width t2 (maxFlowVal summary) (minFlowVal summary)) ∧
        (maxFlowVal summary = minFlowVal summary →
          calculate_arc_width t1 (maxFlowVal summary) (minFlowVal summary) = 1) := by
  constructor
  · intro V _ _ rows selRow selCol topN
    exact ⟨ranking_keys_nodup rows selRow selCol topN,
      display_pairs_mem_summary rows selRow selCol topN⟩
  · intro summary r1 r2 hnd hu h1a h1b h2a h2b hm1 hm2
    obtain ⟨e1, he1, hfst1⟩ := List.mem_map.mp hm1
    obtain ⟨e2, he2, hfst2⟩ := List.mem_map.mp hm2
    have hpe1 : (pairOf r1, e1.2) = e1 := by rw [← hfst1]
    have hpe2 : (pairOf r2, e2.2) = e2 := by rw [← hfst2]
    have hme1 : (pairOf r1, e1.2) ∈ summary := hpe1 ▸ he1
    have hme2 : (pairOf r2, e2.2) ∈ summary := hpe2 ▸ he2
    have hft1 : flowTotal summary r1 = some e1.2 :=
      flowMapping_lookup hnd hu h1a h1b hme1
    have hft2 : flowTotal summary r2 = some e2.2 :=
      flowMapping_lookup hnd hu h2a h2b hme2
    have hv1max : e1.2 ≤ maxFlowVal summary :=
      le_listMax (List.mem_map_of_mem (fun e => e.2) he1)
    have hv1min : minFlowVal summary ≤ e1.2 :=
      listMin_le (List.mem_map_of_mem (fun e => e.2) he1)
    have hv2max : e2.2 ≤ maxFlowVal summary :=
      le_listMax (List.mem_map_of_mem (fun e => e.2) he2)
    have hbounds := calculate_arc_width_bounds hv1min hv1max
    refine ⟨e1.2, e2.2, hme1, hme2, hft1, hft2, ?_, hbounds.1, hbounds.2, ?_, ?_⟩
    · unfold arcWidthAssign
      rw [hft1]
      rfl
    · exact fun ht => calculate_arc_width_mono hv1min ht hv2max
    · exact fun heq => calculate_arc_width_degenerate e1.2 heq

/-- Witness for C4 at a concrete summary: the FR→ES row receives the total
4 and the DE→ES row the total 100 of `sampleSummaryR`. -/
theorem arc_width_from_ranked_totals_witness :
    ∃ t1 t2 : ℝ,
      (pairOf (sampleRowR "FR" "ES"), t1) ∈ sampleSummaryR ∧
      (pairOf (sampleRowR "DE" "ES"), t2) ∈ sampleSummaryR ∧
      flowTotal sampleSummaryR (sampleRowR "FR" "ES") = some t1 ∧
      flowTotal sampleSummaryR (sampleRowR "DE" "ES") = some t2 ∧
      arcWidthAssign sampleSummaryR (sampleRowR "FR" "ES") =
        some (calculate_arc_width t1 (maxFlowVal sampleSummaryR)
          (minFlowVal sampleSummaryR)) ∧
      1 ≤ calculate_arc_width t1 (maxFlowVal sampleSummaryR)
        (minFlowVal sampleSummaryR) ∧
      calculate_arc_width t1 (maxFlowVal sampleSummaryR)
        (minFlowVal sampleSummaryR) ≤ 4 ∧
      (t1 ≤ t2 →
        calculate_arc_width t1 (maxFlowVal sampleSummaryR)
            (minFlowVal sampleSummaryR) ≤
          calculate_arc_width t2 (maxFlowVal sampleSummaryR)
            (minFlowVal sampleSummaryR)) ∧
      (maxFlowVal sampleSummaryR = minFlowVal sampleSummaryR →
        calculate_arc_width t1 (maxFlowVal sampleSummaryR)
          (minFlowVal sampleSummaryR) = 1) :=
  arc_width_from_ranked_totals.2 sampleSummaryR (sampleRowR "FR" "ES")
    (sampleRowR "DE" "ES") (by decide) (by decide) (by decide) (by decide)
    (by decide) (by decide) (by decide) (by decide)

/-- C5.  For every displayed bubble value `v` (member of the list `vs` of
currently displayed bubble values), the assigned radius is
`calculate_bubble_radius v vmax vmin` with `vmax`/`vmin` the maximum and
minimum of `vs`, i.e. `20000 + 50000 * sqrt((v - vmin)/(vmax - vmin))`; it
lies in `[20000, 70000]`, is monotonically non-decreasing in the bubble
value, and equals 25000 for every bubble when `vmax = vmin`. -/
theorem bubble_radius_scale (vs : List ℝ) (v1 v2 : ℝ) (h1 : v1 ∈ vs) (h2 : v2 ∈ vs) :
    bubbleRadiusAssign vs v1 = calculate_bubble_radius v1 (listMax vs) (listMin vs) ∧
    20000 ≤ bubbleRadiusAssign vs v1 ∧
    bubbleRadiusAssign vs v1 ≤ 70000 ∧
    (v1 ≤ v2 → bubbleRadiusAssign vs v1 ≤ bubbleRadiusAssign vs v2) ∧
    (listMax vs = listMin vs → bubbleRadiusAssign vs v1 = 25000) := by
  have hmin1 : listMin vs ≤ v1 := listMin_le h1
  have hmax1 : v1 ≤ listMax vs := le_listMax h1
  have hmax2 : v2 ≤ listMax vs := le_listMax h2
  have hb := calculate_bubble_radius_bounds hmin1 hmax1
  exact ⟨rfl, hb.1, hb.2,
    fun h12 => calculate_bubble_radius_mono hmin1 h12 hmax2,
    fun heq => calculate_bubble_radius_degenerate v1 heq⟩

/-- Witness for C5 on the displayed values `[100, 4]`. -/
theorem bubble_radius_scale_witness :
    bubbleRadiusAssign [(100:ℝ), 4] 4 =
      calculate_bubble_radius 4 (listMax [(100:ℝ), 4]) (listMin [(100:ℝ), 4]) ∧
    20000 ≤ bubbleRadiusAssign [(100:ℝ), 4] 4 ∧
    bubbleRadiusAssign [(100:ℝ), 4] 4 ≤ 70000 ∧
    ((4:ℝ) ≤ 100 → bubbleRadiusAssign [(100:ℝ), 4] 4 ≤
      bubbleRadiusAssign [(100:ℝ), 4] 100) ∧
    (listMax [(100:ℝ), 4] = listMin [(100:ℝ), 4] →
      bubbleRadiusAssign [(100:ℝ), 4] 4 = 25000) :=
  bubble_radius_scale [(100:ℝ), 4] 4 100
    (List.mem_cons_of_mem 100 (List.mem_cons_self 4 []))
    (List.mem_cons_self 100 [4])

end ScaleTheorems

end FlowMap
